import Mathlib

/-!
# Shallow embedding of the session-keys-demo core

This file embeds, in Lean 4, the security-critical core of the
session-keys demo repository:

* `agio-smart-wallet-core` utilities (`calculateExpiry`, `validateSession`,
  `extractSessionId`, `extractSignature`) and constants
  (`MAX_EXPIRY_SEC`, `MAX_EXPIRY_MS`, `DEFAULT_EXPIRY_HOURS`);
* the file/in-memory storage layer (`buildStorageKey`, `getWallets`
  key parsing, `getNextWalletIndex`, `revokeSession`);
* `SmartWalletService.storeSession` and `SmartWalletService.sendTransaction`
  (the walletIndex variants).

JavaScript strings are modelled as `List Char`; JS `number` timestamps are
`Nat` (all values in play are non-negative integer milliseconds); JS
`undefined`/`null` become `Option`; thrown exceptions become `Except`.
External capabilities (viem's `getAddress`/`privateKeyToAccount`, the
Alchemy smart-wallet client) are oracle parameters: arbitrary functions
supplied by the environment.  `Date.now()` is an explicit `now` argument.
-/

namespace SessionKeysDemo

/-! ## Core constants (packages/agio-smart-wallet-core/src/constants.ts) -/

/-- `MAX_EXPIRY_SEC = 4294967295` (max uint32 - year 2106). -/
def MAX_EXPIRY_SEC : Nat := 4294967295

/-- `MAX_EXPIRY_MS = MAX_EXPIRY_SEC * 1000`, the "never expires" sentinel. -/
def MAX_EXPIRY_MS : Nat := MAX_EXPIRY_SEC * 1000

/-- `DEFAULT_EXPIRY_HOURS = 24`. -/
def DEFAULT_EXPIRY_HOURS : Nat := 24

/-! ## Core types (packages/agio-smart-wallet-core/src/types.ts) -/

/-- `CreateSessionOptions`: `expiryHours?: number`, `expiresAt?: number`
(permissions and walletIndex do not enter `calculateExpiry`). -/
structure CreateSessionOptions where
  expiryHours : Option Nat := none
  expiresAt : Option Nat := none
deriving DecidableEq, Repr

/-- `SessionLike = Pick<SessionData | SessionInfo, "revoked" | "expiresAt">`,
the minimal session fields needed for validation. -/
structure SessionLike where
  revoked : Bool
  expiresAt : Nat
deriving DecidableEq, Repr

/-- Reason component of `SessionValidation`. -/
inductive InvalidReason where
  | not_found
  | revoked
  | expired
deriving DecidableEq, Repr

/-- `SessionValidation = {valid: boolean, reason?: ...}`. -/
structure SessionValidation where
  valid : Bool
  reason : Option InvalidReason := none
deriving DecidableEq, Repr

/-! ## Core utilities (packages/agio-smart-wallet-core/src/utils.ts) -/

/-- JS truthiness of a possibly-absent `number`: `undefined` and `0` are
falsy (NaN does not arise for the integral values modelled here). -/
def jsTruthyNat : Option Nat → Bool
  | none => false
  | some n => n != 0

/-- `calculateExpiry(options?)`.  Mirrors the source:
`if (options?.expiresAt) return options.expiresAt;` (a JS truthiness test,
so an explicit `expiresAt: 0` falls through), then
`hours = options?.expiryHours ?? DEFAULT_EXPIRY_HOURS`, `hours === 0`
yields `MAX_EXPIRY_MS`, otherwise `Date.now() + hours * 60 * 60 * 1000`. -/
def calculateExpiry (now : Nat) (options : Option CreateSessionOptions) : Nat :=
  let oExpiresAt := options.bind CreateSessionOptions.expiresAt
  if jsTruthyNat oExpiresAt then
    oExpiresAt.getD 0
  else
    let hours := (options.bind CreateSessionOptions.expiryHours).getD DEFAULT_EXPIRY_HOURS
    if hours == 0 then
      MAX_EXPIRY_MS
    else
      now + hours * 60 * 60 * 1000

/-- `validateSession(session)`.  `!session` is the null/undefined test;
the expiry test in the source is `Date.now() > session.expiresAt`. -/
def validateSession (now : Nat) (session : Option SessionLike) : SessionValidation :=
  match session with
  | none => { valid := false, reason := some .not_found }
  | some s =>
    if s.revoked then
      { valid := false, reason := some .revoked }
    else if now > s.expiresAt then
      { valid := false, reason := some .expired }
    else
      { valid := true }

/-- `isSessionActive(session) = validateSession(session).valid`. -/
def isSessionActive (now : Nat) (session : Option SessionLike) : Bool :=
  (validateSession now session).valid

/-- A JS string, modelled as its list of UTF-16-ish code points. -/
abbrev JStr := List Char

/-- `context.slice(a, b)` for `0 ≤ a ≤ b` within range. -/
def jsSlice (s : JStr) (a b : Nat) : JStr :=
  (s.drop a).take (b - a)

/-- `extractSessionId(context) = "0x" + context.slice(4, 36)`. -/
def extractSessionId (context : JStr) : JStr :=
  '0' :: 'x' :: jsSlice context 4 36

/-- `extractSignature(context) = "0x" + context.slice(36)`. -/
def extractSignature (context : JStr) : JStr :=
  '0' :: 'x' :: context.drop 36

/-! ## Storage key codec (server/src/storage.ts, both storage adapters)

`buildStorageKey(userId, walletIndex?)`: index `undefined` or `0` collapses
to the bare `userId`; otherwise the key is `` `${userId}:${walletIndex}` ``. -/

/-- Big-endian decimal digit characters of `n`, by structural fuel
recursion (empty result for `n = 0`; the fuel is always `≥ n`). -/
def natCharsAux : Nat → Nat → JStr
  | 0, _ => []
  | _ + 1, 0 => []
  | fuel + 1, n + 1 =>
    natCharsAux fuel ((n + 1) / 10) ++ [Char.ofNat (48 + (n + 1) % 10)]

/-- Decimal rendering of a `Nat`, as JS `` `${n}` `` produces
(big-endian digit characters; `natChars 0 = ['0']`). -/
def natChars (n : Nat) : JStr :=
  if n = 0 then ['0'] else natCharsAux n n

/-- `buildStorageKey(userId, walletIndex?)`. -/
def buildStorageKey (userId : JStr) (walletIndex : Option Nat) : JStr :=
  match walletIndex with
  | none => userId
  | some 0 => userId
  | some n => userId ++ ':' :: natChars n

/-- JS `s.split(sep)` on a single-character separator: the list of
(possibly empty) segments. -/
def jsSplit (sep : Char) : JStr → List JStr
  | [] => [[]]
  | c :: rest =>
    if c = sep then
      [] :: jsSplit sep rest
    else
      match jsSplit sep rest with
      | [] => [[c]]
      | seg :: segs => (c :: seg) :: segs

/-- Value of a run of decimal digit characters (most significant first). -/
def digitsToNat (s : JStr) : Nat :=
  s.foldl (fun a c => 10 * a + (c.toNat - 48)) 0

/-- JS `parseInt(s, 10)` restricted to the shapes arising from storage
keys: the maximal leading run of decimal digits, `none` in place of `NaN`
when there is none (sign/whitespace prefixes do not occur in keys). -/
def jsParseInt (s : JStr) : Option Nat :=
  let d := s.takeWhile Char.isDigit
  if d.isEmpty then none else some (digitsToNat d)

/-- The key parsing performed by `FileStorage.getWallets` for a fixed
`userId`: `key === userId` is wallet index 0; a key starting with
`` `${userId}:` `` yields `parseInt(key.split(":")[1], 10)` (inner `none`
models the `NaN` result); any other key does not belong to this user
(outer `none`). -/
def parseWalletIndex (userId key : JStr) : Option (Option Nat) :=
  if key = userId then
    some (some 0)
  else if (userId ++ [':']) <+: key then
    some (jsParseInt ((jsSplit ':' key).getD 1 []))
  else
    none

/-- `WalletData` (the fields `getWallets`/`getNextWalletIndex` use). -/
structure WalletData where
  accountAddress : String
  createdAt : Nat := 0
deriving DecidableEq, Repr

/-- A `WalletData` record enriched with the parsed `walletIndex`
(`none` models `NaN`). -/
structure WalletWithIndex where
  wallet : WalletData
  walletIndex : Option Nat
deriving DecidableEq, Repr

/-- The backing `Map` of a storage adapter, in insertion order. -/
abbrev WalletMap := List (JStr × WalletData)

/-- `FileStorage.getWallets(userId)` before sorting: iterate the map in
insertion order, keep entries whose key is `userId` (index 0) or starts
with `` `${userId}:` `` (index parsed from the key). -/
def collectWallets (userId : JStr) (store : WalletMap) : List WalletWithIndex :=
  store.foldr
    (fun e acc =>
      match parseWalletIndex userId e.1 with
      | some i => { wallet := e.2, walletIndex := i } :: acc
      | none => acc)
    []

/-- Stable insertion into a list sorted ascending by `walletIndex`. -/
def insertByIndex (e : WalletWithIndex) : List WalletWithIndex → List WalletWithIndex
  | [] => [e]
  | x :: xs =>
    if e.walletIndex.getD 0 < x.walletIndex.getD 0 then
      e :: x :: xs
    else
      x :: insertByIndex e xs

/-- Stable sort ascending by `walletIndex` (the effect of JS
`sort((a, b) => a.walletIndex - b.walletIndex)`; the `NaN` comparator
case, unspecified in JS, is ordered as 0 here). -/
def sortByIndex : List WalletWithIndex → List WalletWithIndex
  | [] => []
  | x :: xs => insertByIndex x (sortByIndex xs)

/-- `FileStorage.getWallets(userId)`: the collected entries sorted
ascending by `walletIndex`. -/
def getWallets (userId : JStr) (store : WalletMap) : List WalletWithIndex :=
  sortByIndex (collectWallets userId store)

/-- `FileStorage.getNextWalletIndex(userId)`: `0` when the user has no
wallets, else `Math.max(...indices) + 1`.  The `Option` result models the
JS number: `none` is the `NaN` produced when some stored index is `NaN`. -/
def getNextWalletIndex (userId : JStr) (store : WalletMap) : Option Nat :=
  if getWallets userId store = [] then
    some 0
  else
    ((getWallets userId store).mapM WalletWithIndex.walletIndex).map
      (fun idxs => idxs.foldl max 0 + 1)

/-! ## Session storage (server/src/storage.ts `FileStorage` /
`InMemoryStorage`, walletIndex variants) -/

/-- `SessionData` as stored on the server.  `permissionsContext` is
`Option`al because `sendTransaction` tests it for JS truthiness
(`!session.permissionsContext`); `some ""` and `none` are both falsy. -/
structure SessionData where
  sessionId : String
  sessionKey : String
  sessionKeyAddress : String
  accountAddress : String
  signature : String
  permissionsContext : Option String
  expiresAt : Nat
  revoked : Bool
  createdAt : Option Nat := none
deriving DecidableEq, Repr

/-- The validation view of a stored session
(`Pick<..., "revoked" | "expiresAt">`). -/
def SessionData.toLike (s : SessionData) : SessionLike :=
  { revoked := s.revoked, expiresAt := s.expiresAt }

/-- The sessions `Map` of a storage adapter, in insertion order. -/
abbrev SessionMap := List (JStr × SessionData)

/-- `Map.get(key) ?? null`. -/
def mapGet (key : JStr) (store : SessionMap) : Option SessionData :=
  match store with
  | [] => none
  | e :: rest => if e.1 = key then some e.2 else mapGet key rest

/-- `Map.set(key, v)`: overwrite in place when the key exists
(JS `Map.set` keeps the original insertion position), append otherwise. -/
def mapSet (key : JStr) (v : SessionData) (store : SessionMap) : SessionMap :=
  match store with
  | [] => [(key, v)]
  | e :: rest => if e.1 = key then (key, v) :: rest else e :: mapSet key v rest

/-- `FileStorage.getSession(userId, walletIndex?)`. -/
def getSession (store : SessionMap) (userId : JStr) (walletIndex : Option Nat) :
    Option SessionData :=
  mapGet (buildStorageKey userId walletIndex) store

/-- `FileStorage.revokeSession(userId, walletIndex?)`: if a session is
stored at the key, set `revoked = true` and persist; otherwise do nothing.
The `Bool` records whether `persistSessions()` ran. -/
def revokeSession (store : SessionMap) (userId : JStr) (walletIndex : Option Nat) :
    SessionMap × Bool :=
  let key := buildStorageKey userId walletIndex
  match mapGet key store with
  | none => (store, false)
  | some s => (mapSet key { s with revoked := true } store, true)

/-! ## SmartWalletService (packages/agio-smart-wallet-server/src/index.ts,
walletIndex variant) -/

/-- The external viem functions `storeSession` calls.  Both can throw
(invalid private key / invalid address), hence `Except`. -/
structure CryptoOracle where
  privateKeyToAccountAddress : String → Except String String
  getAddress : String → Except String String

/-- The failure modes of `storeSession`. -/
inductive StoreError where
  | addressMismatch
  | typeError (msg : String)
  | thrown (msg : String)
deriving DecidableEq, Repr

/-- JS `s.toLowerCase()`, mapped over the code points. -/
def jsToLower (s : String) : String :=
  String.mk (s.data.map Char.toLower)

/-- The draft passed to `storeSession`:
`Omit<SessionData, "revoked" | "createdAt">`.  `sessionKeyAddress` is
`Option`al here to express a caller omitting the field at runtime
(TypeScript marks it required; JS does not enforce that). -/
structure SessionDraft where
  sessionId : String
  sessionKey : String
  sessionKeyAddress : Option String
  accountAddress : String
  signature : String
  permissionsContext : Option String
  expiresAt : Nat
deriving DecidableEq, Repr

/-- `SmartWalletService.storeSession(userId, session, walletIndex?)`:
derive the address from `session.sessionKey`, compare it
case-insensitively with `session.sessionKeyAddress` (reading
`.toLowerCase()` off an absent field throws a `TypeError`), throw
`"Session key address mismatch"` on mismatch, else checksum both
addresses, fill in `revoked: false, createdAt: now` and save at
`buildStorageKey(userId, walletIndex)`. -/
def storeSession (crypto : CryptoOracle) (now : Nat) (store : SessionMap)
    (userId : JStr) (draft : SessionDraft) (walletIndex : Option Nat) :
    Except StoreError SessionMap := do
  let derivedAddress ← (crypto.privateKeyToAccountAddress draft.sessionKey).mapError .thrown
  let suppliedAddress ←
    match draft.sessionKeyAddress with
    | none => Except.error (.typeError "Cannot read properties of undefined")
    | some a => Except.ok a
  if jsToLower derivedAddress ≠ jsToLower suppliedAddress then
    Except.error .addressMismatch
  else do
    let checksummedKeyAddr ← (crypto.getAddress suppliedAddress).mapError .thrown
    let checksummedAccount ← (crypto.getAddress draft.accountAddress).mapError .thrown
    let fullSession : SessionData :=
      { sessionId := draft.sessionId
        sessionKey := draft.sessionKey
        sessionKeyAddress := checksummedKeyAddr
        accountAddress := checksummedAccount
        signature := draft.signature
        permissionsContext := draft.permissionsContext
        expiresAt := draft.expiresAt
        revoked := false
        createdAt := some now }
    Except.ok (mapSet (buildStorageKey userId walletIndex) fullSession store)

/-- JS truthiness of a possibly-absent string: `undefined` and `""` are
falsy. -/
def jsTruthyStr : Option String → Bool
  | none => false
  | some s => s != ""

/-- `TransactionRequest`: `to`, optional `value` (Wei; modelled as the
parsed integer, `none` for an absent/empty field) and optional calldata. -/
structure TransactionRequest where
  toAddress : String
  value : Option Nat := none
  data : Option String := none
deriving DecidableEq, Repr

/-- `TransactionResult = {success, transactionHash}`. -/
structure TransactionResult where
  success : Bool
  transactionHash : String
deriving DecidableEq, Repr

/-- Lower-case hex digit. -/
def hexDigitChar (d : Nat) : Char :=
  Char.ofNat (if d < 10 then 48 + d else 87 + d)

/-- `BigInt(n).toString(16)`: minimal lower-case hex (no leading zeros). -/
def hexString (n : Nat) : String :=
  String.mk (if n = 0 then ['0'] else (Nat.digits 16 n).reverse.map hexDigitChar)

/-- What `client.prepareCalls` receives: account, the single call, the
permissions context and the gas policy. -/
structure PrepareArgs where
  fromAddress : String
  toAddress : String
  value : String
  data : String
  context : String
  policyId : String
deriving DecidableEq, Repr

/-- `client.sendPreparedCalls` result: `preparedCallIds?: string[]`. -/
structure SendCallsResult where
  preparedCallIds : List String
deriving DecidableEq, Repr

/-- One receipt of `waitForCallsStatus`. -/
structure Receipt where
  transactionHash : Option String
deriving DecidableEq, Repr

/-- `waitForCallsStatus` result: `receipts?: Receipt[]`. -/
structure CallsStatus where
  receipts : List Receipt
deriving DecidableEq, Repr

/-- The external signing/submission capability (`LocalAccountSigner`,
`@account-kit/wallet-client`): every call can reject, hence `Except`.
Opaque payloads (signer handle, prepared and signed bundles) are modelled
as strings. -/
structure ClientOracle where
  privateKeyToAccountSigner : String → Except String String
  prepareCalls : PrepareArgs → Except String String
  signPreparedCalls : String → String → Except String String
  sendPreparedCalls : String → String → Except String SendCallsResult
  waitForCallsStatus : String → Except String CallsStatus

/-- Ghost instrumentation: the externally visible work
`sendTransaction` performed, in order. -/
inductive Step where
  | createSigner
  | prepareStep
  | signStep
  | submitStep
  | confirmWait
deriving DecidableEq, Repr

/-- `` `Session ${validation.reason || "invalid"}` ``. -/
def reasonString : Option InvalidReason → String
  | some .not_found => "not_found"
  | some .revoked => "revoked"
  | some .expired => "expired"
  | none => "invalid"

/-- The argument bundle `sendTransaction` hands to `prepareCalls`:
`from = session.accountAddress`, the checksummed `to`, `value` as minimal
hex, `data` defaulted to `"0x"`, the session's permissions context and the
configured policy. -/
def prepareArgsOf (policyId : String) (s : SessionData) (checksummedTo : String)
    (tx : TransactionRequest) : PrepareArgs :=
  { fromAddress := s.accountAddress
    toAddress := checksummedTo
    value := "0x" ++ hexString (tx.value.getD 0)
    data := if jsTruthyStr tx.data then tx.data.getD "" else "0x"
    context := s.permissionsContext.getD ""
    policyId := policyId }

/-- `SmartWalletService.sendTransaction(userId, tx, walletIndex?)`.
Mirrors the source step by step: load the session, `validateSession`,
throw `` `Session ${reason}` `` when invalid, require a truthy
`permissionsContext`, build the session signer, checksum `to`, then
`prepareCalls` → `signPreparedCalls` → `sendPreparedCalls`; finally, when
a first prepared-call id exists, `waitForCallsStatus` inside `try/catch`
(a failure there is swallowed and the call id returned).  Alongside the
result it returns the ghost `Step` trace of external work performed. -/
def sendTransaction (oracle : ClientOracle) (crypto : CryptoOracle)
    (policyId : String) (now : Nat) (store : SessionMap)
    (userId : JStr) (tx : TransactionRequest) (walletIndex : Option Nat) :
    Except String TransactionResult × List Step :=
  let session := getSession store userId walletIndex
  let validation := validateSession now (session.map SessionData.toLike)
  match session with
  | none => (.error ("Session " ++ reasonString validation.reason), [])
  | some s =>
    if validation.valid = false then
      (.error ("Session " ++ reasonString validation.reason), [])
    else if jsTruthyStr s.permissionsContext = false then
      (.error "No permissions context found for session", [])
    else
      match oracle.privateKeyToAccountSigner s.sessionKey with
      | .error e => (.error e, [.createSigner])
      | .ok signer =>
        match crypto.getAddress tx.toAddress with
        | .error e => (.error e, [.createSigner])
        | .ok checksummedTo =>
          let args := prepareArgsOf policyId s checksummedTo tx
          match oracle.prepareCalls args with
          | .error e => (.error e, [.createSigner, .prepareStep])
          | .ok preparedCalls =>
            match oracle.signPreparedCalls signer preparedCalls with
            | .error e => (.error e, [.createSigner, .prepareStep, .signStep])
            | .ok signedCalls =>
              match oracle.sendPreparedCalls signedCalls args.context with
              | .error e =>
                (.error e, [.createSigner, .prepareStep, .signStep, .submitStep])
              | .ok result =>
                let callId := result.preparedCallIds.head?
                if jsTruthyStr callId then
                  let c := callId.getD ""
                  match oracle.waitForCallsStatus c with
                  | .error _ =>
                    (.ok { success := true, transactionHash := c },
                     [.createSigner, .prepareStep, .signStep, .submitStep, .confirmWait])
                  | .ok status =>
                    let h := status.receipts.head?.bind Receipt.transactionHash
                    let txHash := if jsTruthyStr h then h.getD "" else c
                    (.ok { success := true, transactionHash := txHash },
                     [.createSigner, .prepareStep, .signStep, .submitStep, .confirmWait])
                else
                  (.ok { success := true, transactionHash := callId.getD "" },
                   [.createSigner, .prepareStep, .signStep, .submitStep])

/-- The caller-visible outcome of one `storeSession` request: the session
store afterwards, and the error thrown, if any.  A throw aborts before
`saveSession`, so on error the store is the one passed in. -/
def runStoreSession (crypto : CryptoOracle) (now : Nat) (store : SessionMap)
    (userId : JStr) (draft : SessionDraft) (walletIndex : Option Nat) :
    SessionMap × Option StoreError :=
  match storeSession crypto now store userId draft walletIndex with
  | .ok st => (st, none)
  | .error e => (store, some e)

/-! ## Concrete instances used by witnesses and counterexamples -/

/-- A concrete stored session for user `"u"`. -/
def sampleSession1 : SessionData :=
  { sessionId := "s1"
    sessionKey := "k"
    sessionKeyAddress := "a"
    accountAddress := "acc"
    signature := "sig"
    permissionsContext := some "ctx"
    expiresAt := 10
    revoked := false }

/-- A concrete stored session for user `"v"`. -/
def sampleSession2 : SessionData :=
  { sessionId := "s2"
    sessionKey := "k2"
    sessionKeyAddress := "a2"
    accountAddress := "acc2"
    signature := "sig2"
    permissionsContext := some "c2"
    expiresAt := 20
    revoked := false }

/-- A concrete two-user session store. -/
def sampleStore : SessionMap :=
  [("u".data, sampleSession1), ("v".data, sampleSession2)]

/-- A store whose only session for `"u"` expires at time 5. -/
def expiredStore : SessionMap :=
  [("u".data, { sampleSession1 with expiresAt := 5 })]

/-- A store whose only session for `"u"` expires at time 100. -/
def validStore : SessionMap :=
  [("u".data, { sampleSession1 with expiresAt := 100 })]

/-- A crypto capability that derives a fixed address and checksums by
identity. -/
def sampleCrypto : CryptoOracle :=
  { privateKeyToAccountAddress := fun _ => .ok "0xAbC"
    getAddress := fun a => .ok a }

/-- A client capability that is never consulted (every call rejects). -/
def stubClient : ClientOracle :=
  { privateKeyToAccountSigner := fun _ => .error "unused"
    prepareCalls := fun _ => .error "unused"
    signPreparedCalls := fun _ _ => .error "unused"
    sendPreparedCalls := fun _ _ => .error "unused"
    waitForCallsStatus := fun _ => .error "unused" }

/-- A client capability whose pipeline succeeds up to submission and whose
confirmation wait then rejects. -/
def okClient : ClientOracle :=
  { privateKeyToAccountSigner := fun k => .ok ("signer:" ++ k)
    prepareCalls := fun _ => .ok "prepared"
    signPreparedCalls := fun _ _ => .ok "signed"
    sendPreparedCalls := fun _ _ => .ok { preparedCallIds := ["0xCALL"] }
    waitForCallsStatus := fun _ => .error "timeout" }

/-- A client capability whose submission succeeds but reports no prepared
call ids. -/
def emptyIdsClient : ClientOracle :=
  { privateKeyToAccountSigner := fun k => .ok ("signer:" ++ k)
    prepareCalls := fun _ => .ok "prepared"
    signPreparedCalls := fun _ _ => .ok "signed"
    sendPreparedCalls := fun _ _ => .ok { preparedCallIds := [] }
    waitForCallsStatus := fun _ => .ok { receipts := [] } }

/-- A session draft whose `sessionKeyAddress` field is absent. -/
def draftNoAddr : SessionDraft :=
  { sessionId := "s1"
    sessionKey := "k"
    sessionKeyAddress := none
    accountAddress := "acc"
    signature := "sig"
    permissionsContext := some "ctx"
    expiresAt := 10 }

/-- A session draft whose `sessionKeyAddress` does not match the derived
address `"0xAbC"`. -/
def draftBadAddr : SessionDraft :=
  { draftNoAddr with sessionKeyAddress := some "0xDEF" }

/-- A session draft whose `sessionKeyAddress` matches the derived address
up to case. -/
def draftGoodAddr : SessionDraft :=
  { draftNoAddr with sessionKeyAddress := some "0xABC" }

/-! ## Claims -/

/-- C1 counterexample: the claim's validity condition demands
`now < expiresAt` strictly, but at `now = expiresAt = 5` the code's test
`Date.now() > session.expiresAt` does not fire and the session is valid. -/
theorem C1_counterexample :
    (validateSession 5 (some { revoked := false, expiresAt := 5 })).valid = true ∧
    ¬ (5 < 5) := by
  decide

/-- C1 (amended): `validateSession s` is valid iff `s` is present,
not revoked, and `now ≤ s.expiresAt` (valid up to and including the
expiry instant); the reason follows the precedence
`not_found` (s null) > `revoked` > `expired` (`now > s.expiresAt`). -/
theorem C1_validateSession_spec (now : Nat) (s : Option SessionLike) :
    ((validateSession now s).valid = true ↔
      ∃ d, s = some d ∧ d.revoked = false ∧ now ≤ d.expiresAt) ∧
    ((validateSession now s).reason = some .not_found ↔ s = none) ∧
    (∀ d, s = some d →
      ((validateSession now s).reason = some .revoked ↔ d.revoked = true) ∧
      ((validateSession now s).reason = some .expired ↔
        d.revoked = false ∧ d.expiresAt < now) ∧
      ((validateSession now s).valid = true ↔
        d.revoked = false ∧ now ≤ d.expiresAt)) := by
  cases s with
  | none => simp [validateSession]
  | some d =>
    by_cases hr : d.revoked <;> by_cases he : d.expiresAt < now <;>
      (simp [validateSession, hr, he]; try omega)

/-- C1 witness: a session expiring at 5, seen at time 10, is reported
`expired`, and at time 3 it is valid. -/
theorem C1_witness :
    (validateSession 10 (some { revoked := false, expiresAt := 5 })).reason
      = some .expired ∧
    (validateSession 3 (some { revoked := false, expiresAt := 5 })).valid = true := by
  constructor
  · exact (((C1_validateSession_spec 10
      (some { revoked := false, expiresAt := 5 })).2.2 _ rfl).2.1).mpr (by decide)
  · exact ((C1_validateSession_spec 3
      (some { revoked := false, expiresAt := 5 })).1).mpr
      ⟨_, rfl, rfl, by decide⟩

/-- C5 counterexample: the claim says an explicit `expiresAt = T` is
returned unchanged for every `T`, but `if (options?.expiresAt)` is a
truthiness test, so `expiresAt: 0` falls through to the default-hours
branch: at call time 100 the result is `100 + 24·3600000`, not `0`. -/
theorem C5_counterexample :
    calculateExpiry 100 (some { expiryHours := none, expiresAt := some 0 }) ≠ 0 ∧
    calculateExpiry 100 (some { expiryHours := none, expiresAt := some 0 })
      = 100 + 24 * 3600000 := by
  decide

/-- C5 (amended): `calculateExpiry` returns an explicit *non-zero*
`expiresAt = T` exactly, regardless of other fields and of call time;
when `expiresAt` is absent (or zero, which the truthiness test conflates
with absent), `hours = expiryHours ?? 24` decides: `hours = 0` yields the
never-expires sentinel `MAX_EXPIRY_MS = 4294967295·1000` regardless of
call time, else `now + hours·3600000`. -/
theorem C5_calculateExpiry_spec (now : Nat) (o : CreateSessionOptions) :
    (∀ T, T ≠ 0 → o.expiresAt = some T → calculateExpiry now (some o) = T) ∧
    ((o.expiresAt = none ∨ o.expiresAt = some 0) →
      calculateExpiry now (some o) =
        if o.expiryHours.getD DEFAULT_EXPIRY_HOURS = 0 then MAX_EXPIRY_MS
        else now + o.expiryHours.getD DEFAULT_EXPIRY_HOURS * 3600000) ∧
    MAX_EXPIRY_MS = 4294967295 * 1000 := by
  refine ⟨?_, ?_, rfl⟩
  · intro T hT hEq
    simp [calculateExpiry, hEq, jsTruthyNat, hT]
  · intro h
    rcases h with h | h <;>
      rcases ho : o.expiryHours with _ | hours <;>
        simp [calculateExpiry, h, ho, jsTruthyNat, DEFAULT_EXPIRY_HOURS] <;>
          rcases hours with _ | k <;> simp <;> ring

/-- C5 witness: an explicit `expiresAt = 42` wins; `expiryHours = 0`
yields the sentinel; the default is 24 hours. -/
theorem C5_witness :
    calculateExpiry 100 (some { expiryHours := some 7, expiresAt := some 42 }) = 42 ∧
    calculateExpiry 100 (some { expiryHours := some 0, expiresAt := none })
      = MAX_EXPIRY_MS := by
  constructor
  · exact (C5_calculateExpiry_spec 100 _).1 42 (by decide) rfl
  · have h := (C5_calculateExpiry_spec 100
      { expiryHours := some 0, expiresAt := none }).2.1 (Or.inl rfl)
    simpa using h

/-- C7: the two extractors exactly invert a permissions context built as
`"0x"` + one mode byte (2 hex chars) + a 16-byte sessionId (32 hex chars)
+ trailing signature chars: `extractSessionId` returns `"0x" + sessionId`
and `extractSignature` returns `"0x" + signature`.  Both are plain
functions of the context string: pure and deterministic. -/
theorem C7_extract_inverts_context (m sid sig : JStr)
    (hm : m.length = 2) (hs : sid.length = 32) :
    extractSessionId ('0' :: 'x' :: (m ++ (sid ++ sig))) = '0' :: 'x' :: sid ∧
    extractSignature ('0' :: 'x' :: (m ++ (sid ++ sig))) = '0' :: 'x' :: sig := by
  constructor
  · show '0' :: 'x' :: jsSlice ('0' :: 'x' :: (m ++ (sid ++ sig))) 4 36 = _
    have hdrop : List.drop 4 ('0' :: 'x' :: (m ++ (sid ++ sig))) = sid ++ sig := by
      show List.drop 2 (m ++ (sid ++ sig)) = sid ++ sig
      rw [← hm, List.drop_left]
    simp only [jsSlice, hdrop]
    rw [show 36 - 4 = 32 from rfl, ← hs, List.take_left]
  · show '0' :: 'x' :: List.drop 36 ('0' :: 'x' :: (m ++ (sid ++ sig))) = _
    have hdrop : List.drop 36 ('0' :: 'x' :: (m ++ (sid ++ sig))) = sig := by
      show List.drop 34 (m ++ (sid ++ sig)) = sig
      rw [← List.append_assoc]
      have hlen : (m ++ sid).length = 34 := by simp [hm, hs]
      rw [← hlen, List.drop_left]
    rw [hdrop]

/-- C7 witness: a concrete context with mode byte `00`, a 32-hex-char
sessionId and signature `"ff01"` splits back into its parts. -/
theorem C7_witness :
    extractSessionId ('0' :: 'x' ::
        ("00".data ++ ("0123456789abcdef0123456789abcdef".data ++ "ff01".data)))
      = '0' :: 'x' :: "0123456789abcdef0123456789abcdef".data ∧
    extractSignature ('0' :: 'x' ::
        ("00".data ++ ("0123456789abcdef0123456789abcdef".data ++ "ff01".data)))
      = '0' :: 'x' :: "ff01".data :=
  C7_extract_inverts_context "00".data "0123456789abcdef0123456789abcdef".data
    "ff01".data (by decide) (by decide)

/-! ### Decimal-key helper lemmas -/

theorem jsSplit_sep_append (u w : JStr) (hu : ':' ∉ u) :
    jsSplit ':' (u ++ ':' :: w) = u :: jsSplit ':' w := by
  induction u with
  | nil => simp [jsSplit]
  | cons c u ih =>
    have hc : ¬ c = ':' := fun h => hu (h ▸ List.mem_cons_self c u)
    have hu' : ':' ∉ u := fun h => hu (List.mem_cons_of_mem c h)
    simp only [List.cons_append, jsSplit, List.append_eq, if_neg hc, ih hu']

theorem jsSplit_no_sep (w : JStr) (hw : ':' ∉ w) : jsSplit ':' w = [w] := by
  induction w with
  | nil => rfl
  | cons c w ih =>
    have hc : ¬ c = ':' := fun h => hw (h ▸ List.mem_cons_self c w)
    have hw' : ':' ∉ w := fun h => hw (List.mem_cons_of_mem c h)
    simp only [jsSplit, if_neg hc, ih hw']

theorem toNat_digitChar_sub (r : Nat) (hr : r < 10) :
    (Char.ofNat (48 + r)).toNat - 48 = r := by
  interval_cases r <;> decide

theorem isDigit_digitChar (r : Nat) (hr : r < 10) :
    (Char.ofNat (48 + r)).isDigit := by
  interval_cases r <;> decide

theorem natCharsAux_spec (fuel : Nat) : ∀ n a, n ≤ fuel →
    ((natCharsAux fuel n).foldl (fun x c => 10 * x + (c.toNat - 48)) a
      = a * 10 ^ (natCharsAux fuel n).length + n) ∧
    (∀ c ∈ natCharsAux fuel n, c.isDigit) ∧
    (0 < n → natCharsAux fuel n ≠ []) := by
  induction fuel with
  | zero =>
    intro n a h
    have hn : n = 0 := Nat.le_zero.mp h
    subst hn
    exact ⟨by simp [natCharsAux], by simp [natCharsAux], by simp⟩
  | succ fuel ih =>
    intro n a _
    match n with
    | 0 => exact ⟨by simp [natCharsAux], by simp [natCharsAux], by simp⟩
    | n + 1 =>
      have hfuel : (n + 1) / 10 ≤ fuel := by
        have : (n + 1) / 10 < n + 1 := Nat.div_lt_self (Nat.succ_pos n) (by norm_num)
        omega
      have hr : (n + 1) % 10 < 10 := Nat.mod_lt _ (by norm_num)
      refine ⟨?_, ?_, fun _ => by simp [natCharsAux]⟩
      · show (natCharsAux fuel ((n + 1) / 10) ++ [_]).foldl _ a = _
        rw [List.foldl_append]
        simp only [List.foldl_cons, List.foldl_nil]
        rw [(ih ((n + 1) / 10) a hfuel).1, toNat_digitChar_sub _ hr]
        have hlen : (natCharsAux (fuel + 1) (n + 1)).length
            = (natCharsAux fuel ((n + 1) / 10)).length + 1 := by
          simp [natCharsAux]
        rw [hlen]
        calc 10 * (a * 10 ^ (natCharsAux fuel ((n + 1) / 10)).length + (n + 1) / 10)
              + (n + 1) % 10
            = a * (10 ^ (natCharsAux fuel ((n + 1) / 10)).length * 10)
              + (10 * ((n + 1) / 10) + (n + 1) % 10) := by ring
          _ = a * 10 ^ ((natCharsAux fuel ((n + 1) / 10)).length + 1) + (n + 1) := by
              rw [Nat.div_add_mod, pow_succ]
      · intro c hc
        simp only [natCharsAux] at hc
        rcases List.mem_append.mp hc with h | h
        · exact (ih ((n + 1) / 10) a hfuel).2.1 c h
        · simp only [List.mem_singleton] at h
          subst h
          exact isDigit_digitChar _ hr

theorem natChars_all_digits (n : Nat) : ∀ c ∈ natChars n, c.isDigit := by
  intro c hc
  unfold natChars at hc
  split at hc
  · simp only [List.mem_singleton] at hc
    subst hc; decide
  · exact (natCharsAux_spec n n 0 le_rfl).2.1 c hc

theorem natChars_ne_nil (n : Nat) : natChars n ≠ [] := by
  unfold natChars
  split
  · simp
  · exact (natCharsAux_spec n n 0 le_rfl).2.2 (Nat.pos_of_ne_zero (by assumption))

theorem no_colon_natChars (n : Nat) : ':' ∉ natChars n := by
  intro h
  have := natChars_all_digits n ':' h
  simp [Char.isDigit] at this

theorem digitsToNat_natChars (n : Nat) : digitsToNat (natChars n) = n := by
  unfold digitsToNat natChars
  split
  · rename_i h
    subst h
    decide
  · simpa using (natCharsAux_spec n n 0 le_rfl).1

theorem jsParseInt_natChars (n : Nat) : jsParseInt (natChars n) = some n := by
  unfold jsParseInt
  have htake : (natChars n).takeWhile Char.isDigit = natChars n :=
    List.takeWhile_eq_self_iff.mpr (natChars_all_digits n)
  simp only [htake, List.isEmpty_iff, digitsToNat_natChars n]
  rw [if_neg (natChars_ne_nil n)]

/-- C6 counterexample: for a userId that itself contains `':'`, the
listing-side parse is not the inverse of `buildStorageKey`: for user
`"a:b"` and index 2 the key is `"a:b:2"`, and `parseInt(key.split(":")[1])`
reads the segment `"b"`, yielding `NaN` (modelled `none`) instead of 2. -/
theorem C6_counterexample :
    parseWalletIndex "a:b".data (buildStorageKey "a:b".data (some 2))
      ≠ some (some 2) ∧
    parseWalletIndex "a:b".data (buildStorageKey "a:b".data (some 2))
      = some none := by
  decide

/-- C6 (amended): for every userId `u` free of the `':'` separator and
every `n ≥ 0`: `buildKey(u) = buildKey(u, 0) = u`,
`buildKey(u, n) = "{u}:{n}"` for `n > 0` (this part needs no restriction
on `u`), and the key parsing performed when listing wallets inverts it:
`parseKey(buildKey(u, n)) = (u, n)` for all `n ≥ 0`. -/
theorem C6_key_codec (u : JStr) (n : Nat) (hu : ':' ∉ u) :
    buildStorageKey u none = u ∧
    buildStorageKey u (some 0) = u ∧
    (∀ v : JStr, ∀ m : Nat, 0 < m →
      buildStorageKey v (some m) = v ++ ':' :: natChars m) ∧
    parseWalletIndex u (buildStorageKey u (some n)) = some (some n) := by
  refine ⟨rfl, rfl, ?_, ?_⟩
  · intro v m hm
    match m, hm with
    | m + 1, _ => rfl
  · match n with
    | 0 => simp [buildStorageKey, parseWalletIndex]
    | n + 1 =>
      have hkey : buildStorageKey u (some (n + 1)) = u ++ ':' :: natChars (n + 1) := rfl
      rw [hkey]
      unfold parseWalletIndex
      have hne : ¬ (u ++ ':' :: natChars (n + 1) = u) := by
        intro h
        have := congrArg List.length h
        simp at this
      rw [if_neg hne]
      have hpre : u ++ [':'] <+: u ++ ':' :: natChars (n + 1) :=
        ⟨natChars (n + 1), by simp⟩
      rw [if_pos hpre]
      rw [jsSplit_sep_append u _ hu, jsSplit_no_sep _ (no_colon_natChars (n + 1))]
      simp [jsParseInt_natChars]

/-- C6 witness: for user `"alice"` the codec round-trips at indices 0
and 3, and `buildKey` renders `"alice:3"`. -/
theorem C6_witness :
    parseWalletIndex "alice".data (buildStorageKey "alice".data (some 0))
      = some (some 0) ∧
    parseWalletIndex "alice".data (buildStorageKey "alice".data (some 3))
      = some (some 3) ∧
    buildStorageKey "alice".data (some 3) = "alice:3".data := by
  refine ⟨(C6_key_codec "alice".data 0 (by decide)).2.2.2,
    (C6_key_codec "alice".data 3 (by decide)).2.2.2, by decide⟩

/-! ### Maximum / map-update helper lemmas -/

theorem foldl_max_bounds (l : List Nat) : ∀ a : Nat,
    a ≤ l.foldl max a ∧ ∀ i ∈ l, i ≤ l.foldl max a := by
  induction l with
  | nil => exact fun a => ⟨le_rfl, by simp⟩
  | cons x l ih =>
    intro a
    simp only [List.foldl_cons]
    refine ⟨le_trans (le_max_left a x) (ih (max a x)).1, ?_⟩
    intro i hi
    rcases List.mem_cons.mp hi with h | h
    · subst h
      exact le_trans (le_max_right a i) (ih (max a i)).1
    · exact (ih (max a x)).2 i h

theorem foldl_max_mem (l : List Nat) : ∀ a : Nat,
    l.foldl max a = a ∨ l.foldl max a ∈ l := by
  induction l with
  | nil => exact fun a => Or.inl rfl
  | cons x l ih =>
    intro a
    rcases ih (max a x) with h | h
    · rcases Nat.le_total a x with hax | hxa
      · right
        rw [List.foldl_cons, h, max_eq_right hax]
        exact List.mem_cons_self x l
      · left
        rw [List.foldl_cons, h, max_eq_left hxa]
    · right
      exact List.mem_cons_of_mem x h

theorem mapM_option_eq_filterMap {α β : Type} (f : α → Option β) (l : List α)
    (h : ∀ x ∈ l, (f x).isSome) : l.mapM f = some (l.filterMap f) := by
  induction l with
  | nil => rfl
  | cons x l ih =>
    obtain ⟨b, hb⟩ := Option.isSome_iff_exists.mp (h x (List.mem_cons_self x l))
    rw [List.mapM_cons, hb, ih (fun y hy => h y (List.mem_cons_of_mem x hy)),
      List.filterMap_cons, hb]
    rfl

theorem mapGet_mapSet_self (k : JStr) (v : SessionData) (store : SessionMap) :
    mapGet k (mapSet k v store) = some v := by
  induction store with
  | nil => simp [mapGet, mapSet]
  | cons e rest ih =>
    by_cases h : e.1 = k
    · simp [mapGet, mapSet, h]
    · simp [mapGet, mapSet, h, ih]

theorem mapGet_mapSet_other (k k' : JStr) (v : SessionData) (store : SessionMap)
    (h : k' ≠ k) : mapGet k' (mapSet k v store) = mapGet k' store := by
  induction store with
  | nil =>
    simp only [mapSet, mapGet]
    rw [if_neg (fun hk => h hk.symm)]
  | cons e rest ih =>
    by_cases he : e.1 = k
    · subst he
      simp only [mapSet, if_pos rfl, mapGet]
      rw [if_neg (fun hk => h hk.symm), if_neg (fun hk => h hk.symm)]
    · simp only [mapSet, if_neg he, mapGet]
      by_cases he' : e.1 = k'
      · rw [if_pos he', if_pos he']
      · rw [if_neg he', if_neg he', ih]

/-- C8: `getNextWalletIndex(u)` is 0 when the user has no wallets, and
otherwise `some (m + 1)` where `m` is the maximum of the wallet indices
parsed for that user (so with indices {0, 1, 3} it returns 4 — the
witness checks that instance); the well-formedness hypothesis rules out
`NaN` indices from malformed keys. -/
theorem C8_getNextWalletIndex_spec (u : JStr) (store : WalletMap)
    (hall : ∀ e ∈ getWallets u store, e.walletIndex.isSome) :
    (getWallets u store = [] → getNextWalletIndex u store = some 0) ∧
    (getWallets u store ≠ [] →
      ∃ m, getNextWalletIndex u store = some (m + 1) ∧
        m ∈ (getWallets u store).filterMap WalletWithIndex.walletIndex ∧
        ∀ i ∈ (getWallets u store).filterMap WalletWithIndex.walletIndex, i ≤ m) := by
  constructor
  · intro h
    simp [getNextWalletIndex, h]
  · intro hne
    have hmapM := mapM_option_eq_filterMap WalletWithIndex.walletIndex
      (getWallets u store) hall
    set idxs := (getWallets u store).filterMap WalletWithIndex.walletIndex with hidxs
    have hidxs_ne : idxs ≠ [] := by
      obtain ⟨e, rest, hcons⟩ := List.exists_cons_of_ne_nil hne
      obtain ⟨b, hb⟩ := Option.isSome_iff_exists.mp
        (hall e (hcons ▸ List.mem_cons_self e rest))
      rw [hidxs, hcons, List.filterMap_cons, hb]
      simp
    refine ⟨idxs.foldl max 0, ?_, ?_, (foldl_max_bounds idxs 0).2⟩
    · unfold getNextWalletIndex
      rw [if_neg hne, hmapM]
      rfl
    · rcases foldl_max_mem idxs 0 with h | h
      · obtain ⟨i, rest, hcons⟩ := List.exists_cons_of_ne_nil hidxs_ne
        have hle : i ≤ idxs.foldl max 0 :=
          (foldl_max_bounds idxs 0).2 i (hcons ▸ List.mem_cons_self i rest)
        have : i = 0 := by omega
        rw [h, ← this]
        exact hcons ▸ List.mem_cons_self i rest
      · exact h

/-- C8 witness: a store with wallets at indices 0, 1 and 3 for user `"u"`
(plus an unrelated user) yields next index 4; an empty store yields 0. -/
theorem C8_witness :
    (∃ m, getNextWalletIndex "u".data
        [("u".data, { accountAddress := "A" }),
         ("u:1".data, { accountAddress := "B" }),
         ("v".data, { accountAddress := "X" }),
         ("u:3".data, { accountAddress := "C" })] = some (m + 1) ∧
      m ∈ (getWallets "u".data
        [("u".data, { accountAddress := "A" }),
         ("u:1".data, { accountAddress := "B" }),
         ("v".data, { accountAddress := "X" }),
         ("u:3".data, { accountAddress := "C" })]).filterMap
          WalletWithIndex.walletIndex ∧
      ∀ i ∈ (getWallets "u".data
        [("u".data, { accountAddress := "A" }),
         ("u:1".data, { accountAddress := "B" }),
         ("v".data, { accountAddress := "X" }),
         ("u:3".data, { accountAddress := "C" })]).filterMap
          WalletWithIndex.walletIndex, i ≤ m) ∧
    getNextWalletIndex "u".data
        [("u".data, { accountAddress := "A" }),
         ("u:1".data, { accountAddress := "B" }),
         ("v".data, { accountAddress := "X" }),
         ("u:3".data, { accountAddress := "C" })] = some 4 ∧
    getNextWalletIndex "u".data [] = some 0 := by
  refine ⟨(C8_getNextWalletIndex_spec "u".data _ (by decide)).2 (by decide),
    by decide, (C8_getNextWalletIndex_spec "u".data [] (by decide)).1 (by decide)⟩

/-- C9: `revokeSession(userId, walletIndex?)` on a key holding no session
is a silent no-op — the map is returned unchanged and nothing is
persisted; on a key holding a session it sets `revoked := true` at that
key, persists, and leaves every other key untouched. -/
theorem C9_revokeSession_spec (store : SessionMap) (u : JStr) (wi : Option Nat) :
    (getSession store u wi = none → revokeSession store u wi = (store, false)) ∧
    (∀ s, getSession store u wi = some s →
      (revokeSession store u wi).2 = true ∧
      getSession (revokeSession store u wi).1 u wi = some { s with revoked := true } ∧
      ∀ k, k ≠ buildStorageKey u wi →
        mapGet k (revokeSession store u wi).1 = mapGet k store) := by
  constructor
  · intro h
    simp [revokeSession, getSession] at h ⊢
    rw [h]
  · intro s h
    simp only [getSession] at h
    simp only [revokeSession, h, getSession]
    exact ⟨trivial, mapGet_mapSet_self _ _ _,
      fun k hk => mapGet_mapSet_other _ _ _ _ hk⟩

/-- C9 witness: revoking user `"u"`'s default-key session in an empty
store changes nothing and persists nothing; revoking an existing session
flips its `revoked` flag and leaves the other user's entry alone. -/
theorem C9_witness :
    revokeSession [] "u".data none = ([], false) ∧
    (revokeSession sampleStore "u".data none).2 = true ∧
    getSession (revokeSession sampleStore "u".data none).1 "u".data none
      = some { sampleSession1 with revoked := true } ∧
    mapGet "v".data (revokeSession sampleStore "u".data none).1
      = mapGet "v".data sampleStore := by
  refine ⟨(C9_revokeSession_spec [] "u".data none).1 rfl, ?_, ?_, ?_⟩
  · exact ((C9_revokeSession_spec sampleStore "u".data none).2 sampleSession1 rfl).1
  · exact ((C9_revokeSession_spec sampleStore "u".data none).2 sampleSession1 rfl).2.1
  · exact ((C9_revokeSession_spec sampleStore "u".data none).2 sampleSession1 rfl).2.2
      "v".data (by decide)

/-- C4 counterexample: the claim says an absent `draft.sessionKeyAddress`
makes `storeSession` derive the address and succeed, but the service code
unconditionally reads `session.sessionKeyAddress.toLowerCase()`, so an
absent field throws a `TypeError` instead — nothing is persisted and the
call does not succeed. -/
theorem C4_counterexample :
    runStoreSession sampleCrypto 0 [] "u".data draftNoAddr none
      = ([], some (.typeError "Cannot read properties of undefined")) ∧
    ∀ st, storeSession sampleCrypto 0 [] "u".data draftNoAddr none ≠ .ok st := by
  constructor
  · rfl
  · intro st h
    simp [storeSession, sampleCrypto, draftNoAddr, Except.mapError,
      bind, Except.bind] at h

/-- C4 (amended): when the supplied `draft.sessionKeyAddress` differs
(case-insensitively) from the address derived from `draft.sessionKey`,
`storeSession` fails with the address-mismatch error and persists
nothing; when `draft.sessionKeyAddress` is absent, `storeSession` does
not derive-and-succeed: it throws (a `TypeError` from reading the missing
field) and likewise persists nothing. -/
theorem C4_storeSession_spec (crypto : CryptoOracle) (now : Nat)
    (store : SessionMap) (u : JStr) (draft : SessionDraft) (wi : Option Nat)
    (derived : String)
    (hderive : crypto.privateKeyToAccountAddress draft.sessionKey
      = Except.ok derived) :
    (∀ addr, draft.sessionKeyAddress = some addr →
      jsToLower derived ≠ jsToLower addr →
      runStoreSession crypto now store u draft wi
        = (store, some .addressMismatch)) ∧
    (draft.sessionKeyAddress = none →
      runStoreSession crypto now store u draft wi
        = (store, some (.typeError "Cannot read properties of undefined"))) := by
  constructor
  · intro addr haddr hne
    unfold runStoreSession storeSession
    rw [hderive, haddr]
    simp only [bind, Except.bind, Except.mapError]
    rw [if_pos hne]
  · intro haddr
    unfold runStoreSession storeSession
    rw [hderive, haddr]
    simp only [bind, Except.bind, Except.mapError]

/-- C4 witness: with derived address `"0xAbC"`, the draft supplying
`"0xDEF"` is rejected with the mismatch error (store unchanged), the
absent-address draft throws, and — for contrast — the case-insensitively
matching draft `"0xABC"` is accepted. -/
theorem C4_witness :
    runStoreSession sampleCrypto 7 sampleStore "w".data draftBadAddr none
      = (sampleStore, some .addressMismatch) ∧
    runStoreSession sampleCrypto 7 sampleStore "w".data draftNoAddr none
      = (sampleStore, some (.typeError "Cannot read properties of undefined")) ∧
    (runStoreSession sampleCrypto 7 sampleStore "w".data draftGoodAddr none).2
      = none := by
  refine ⟨?_, ?_, by decide⟩
  · exact (C4_storeSession_spec sampleCrypto 7 sampleStore "w".data draftBadAddr
      none "0xAbC" rfl).1 "0xDEF" rfl (by decide)
  · exact (C4_storeSession_spec sampleCrypto 7 sampleStore "w".data draftNoAddr
      none "0xAbC" rfl).2 rfl

theorem validateSession_reason_of_invalid (now : Nat) (o : Option SessionLike)
    (h : (validateSession now o).valid = false) :
    ∃ r, (validateSession now o).reason = some r := by
  cases o with
  | none => exact ⟨.not_found, rfl⟩
  | some d =>
    unfold validateSession at h ⊢
    by_cases hr : d.revoked
    · simp [hr]
    · by_cases he : now > d.expiresAt
      · simp [hr, he]
      · simp [hr, he] at h

/-- C2: whenever the stored session fails validation (in particular an
expired one), `sendTransaction` throws `` `Session ${reason}` `` carrying
the precise validation reason (the reason is always present when
invalid), and performs no external work at all: the step trace is empty —
no signer creation, no preparation, no signing, no submission. -/
theorem C2_invalid_session_blocks (oracle : ClientOracle) (crypto : CryptoOracle)
    (policyId : String) (now : Nat) (store : SessionMap) (u : JStr)
    (tx : TransactionRequest) (wi : Option Nat)
    (hinvalid : (validateSession now
      ((getSession store u wi).map SessionData.toLike)).valid = false) :
    (∃ r, (validateSession now
      ((getSession store u wi).map SessionData.toLike)).reason = some r) ∧
    sendTransaction oracle crypto policyId now store u tx wi =
      (.error ("Session " ++ reasonString (validateSession now
        ((getSession store u wi).map SessionData.toLike)).reason), []) := by
  refine ⟨validateSession_reason_of_invalid now _ hinvalid, ?_⟩
  cases hsess : getSession store u wi with
  | none =>
    simp only [sendTransaction, hsess]
  | some s =>
    rw [hsess] at hinvalid
    simp only [Option.map_some'] at hinvalid
    simp only [sendTransaction, hsess, Option.map_some']
    rw [if_pos hinvalid]

/-- C2 witness: at time 10, the session stored for `"u"` expired at 5;
`sendTransaction` fails with exactly `"Session expired"` and the trace is
empty. -/
theorem C2_witness :
    (validateSession 10
      ((getSession expiredStore "u".data none).map SessionData.toLike)).valid
      = false ∧
    sendTransaction stubClient sampleCrypto "p" 10 expiredStore "u".data
        { toAddress := "0xT" } none
      = (.error "Session expired", []) := by
  refine ⟨by decide, ?_⟩
  have h := (C2_invalid_session_blocks stubClient sampleCrypto "p" 10 expiredStore
    "u".data { toAddress := "0xT" } none (by decide)).2
  rw [h]
  rfl

/-- C3: if the pipeline reaches submission successfully and the
submission yields a (truthy) first prepared-call id `c`, then a failing
confirmation wait does not fail the overall call: the result is
`{success: true, transactionHash: c}` (and the wait was attempted, as the
trace records). -/
theorem C3_confirm_failure_absorbed (oracle : ClientOracle) (crypto : CryptoOracle)
    (policyId : String) (now : Nat) (store : SessionMap) (u : JStr)
    (tx : TransactionRequest) (wi : Option Nat) (s : SessionData)
    (signer checksummedTo prepared signed : String) (res : SendCallsResult)
    (c e : String)
    (hsess : getSession store u wi = some s)
    (hvalid : (validateSession now (some s.toLike)).valid = true)
    (hctx : jsTruthyStr s.permissionsContext = true)
    (hsigner : oracle.privateKeyToAccountSigner s.sessionKey = .ok signer)
    (haddr : crypto.getAddress tx.toAddress = .ok checksummedTo)
    (hprep : oracle.prepareCalls (prepareArgsOf policyId s checksummedTo tx)
      = .ok prepared)
    (hsign : oracle.signPreparedCalls signer prepared = .ok signed)
    (hsend : oracle.sendPreparedCalls signed
      (prepareArgsOf policyId s checksummedTo tx).context = .ok res)
    (hhead : res.preparedCallIds.head? = some c)
    (hc : c ≠ "")
    (hwait : oracle.waitForCallsStatus c = .error e) :
    sendTransaction oracle crypto policyId now store u tx wi =
      (.ok { success := true, transactionHash := c },
       [.createSigner, .prepareStep, .signStep, .submitStep, .confirmWait]) := by
  have htruthy : jsTruthyStr res.preparedCallIds.head? = true := by
    rw [hhead]
    simpa [jsTruthyStr] using hc
  have hgetD : res.preparedCallIds.head?.getD "" = c := by
    rw [hhead]; rfl
  simp only [sendTransaction, hsess, Option.map_some', hvalid, hctx, hsigner,
    haddr, hprep, hsign, hsend, htruthy, hgetD, hwait]
  simp

/-- C3 witness: with the concrete `okClient` (submission returns id
`"0xCALL"`, confirmation wait rejects with `"timeout"`), a valid session
still yields `{success: true, transactionHash: "0xCALL"}`. -/
theorem C3_witness :
    sendTransaction okClient sampleCrypto "p" 10 validStore "u".data
        { toAddress := "0xT" } none
      = (.ok { success := true, transactionHash := "0xCALL" },
         [.createSigner, .prepareStep, .signStep, .submitStep, .confirmWait]) :=
  C3_confirm_failure_absorbed okClient sampleCrypto "p" 10 validStore "u".data
    { toAddress := "0xT" } none { sampleSession1 with expiresAt := 100 }
    "signer:k" "0xT" "prepared" "signed" { preparedCallIds := ["0xCALL"] }
    "0xCALL" "timeout" rfl (by decide) (by decide) rfl rfl rfl rfl rfl rfl
    (by decide) rfl

/-- C10: (a) whenever `sendTransaction` returns normally, the returned
`success` flag is `true` — every failure mode surfaces as a thrown error
only; (b) when submission succeeds but reports no prepared-call ids, the
confirmation wait is skipped (no `confirmWait` in the trace) and the
returned `transactionHash` is the empty string. -/
theorem C10_success_flag_spec (oracle : ClientOracle) (crypto : CryptoOracle)
    (policyId : String) (now : Nat) (store : SessionMap) (u : JStr)
    (tx : TransactionRequest) (wi : Option Nat) :
    (∀ r trace, sendTransaction oracle crypto policyId now store u tx wi
        = (.ok r, trace) → r.success = true) ∧
    (∀ s signer checksummedTo prepared signed res,
      getSession store u wi = some s →
      (validateSession now (some s.toLike)).valid = true →
      jsTruthyStr s.permissionsContext = true →
      oracle.privateKeyToAccountSigner s.sessionKey = .ok signer →
      crypto.getAddress tx.toAddress = .ok checksummedTo →
      oracle.prepareCalls (prepareArgsOf policyId s checksummedTo tx)
        = .ok prepared →
      oracle.signPreparedCalls signer prepared = .ok signed →
      oracle.sendPreparedCalls signed
        (prepareArgsOf policyId s checksummedTo tx).context = .ok res →
      res.preparedCallIds = [] →
      sendTransaction oracle crypto policyId now store u tx wi
        = (.ok { success := true, transactionHash := "" },
           [.createSigner, .prepareStep, .signStep, .submitStep])) := by
  constructor
  · intro r trace h
    cases hsess : getSession store u wi with
    | none =>
      simp only [sendTransaction, hsess] at h
      simp at h
    | some s =>
      simp only [sendTransaction, hsess, Option.map_some'] at h
      by_cases hv : (validateSession now (some s.toLike)).valid = false
      · rw [if_pos hv] at h
        simp at h
      · rw [if_neg hv] at h
        by_cases hctx : jsTruthyStr s.permissionsContext = false
        · rw [if_pos hctx] at h
          simp at h
        · rw [if_neg hctx] at h
          cases hsg : oracle.privateKeyToAccountSigner s.sessionKey with
          | error e => simp only [hsg] at h; simp at h
          | ok signer =>
          simp only [hsg] at h
          cases hga : crypto.getAddress tx.toAddress with
          | error e => simp only [hga] at h; simp at h
          | ok cto =>
          simp only [hga] at h
          cases hp : oracle.prepareCalls (prepareArgsOf policyId s cto tx) with
          | error e => simp only [hp] at h; simp at h
          | ok prep =>
          simp only [hp] at h
          cases hsi : oracle.signPreparedCalls signer prep with
          | error e => simp only [hsi] at h; simp at h
          | ok sgn =>
          simp only [hsi] at h
          cases hsd : oracle.sendPreparedCalls sgn
              (prepareArgsOf policyId s cto tx).context with
          | error e => simp only [hsd] at h; simp at h
          | ok res =>
          simp only [hsd] at h
          by_cases hid : jsTruthyStr res.preparedCallIds.head? = true
          · rw [if_pos hid] at h
            cases hw : oracle.waitForCallsStatus (res.preparedCallIds.head?.getD "") with
            | error e =>
              simp only [hw] at h
              simp only [Prod.mk.injEq, Except.ok.injEq] at h
              rw [← h.1]
            | ok status =>
              simp only [hw] at h
              simp only [Prod.mk.injEq, Except.ok.injEq] at h
              rw [← h.1]
          · rw [if_neg hid] at h
            simp only [Prod.mk.injEq, Except.ok.injEq] at h
            rw [← h.1]
  · intro s signer checksummedTo prepared signed res hsess hvalid hctx hsigner
      haddr hprep hsign hsend hids
    have hhead : res.preparedCallIds.head? = none := by
      rw [hids]; rfl
    simp only [sendTransaction, hsess, Option.map_some', hvalid, hctx, hsigner,
      haddr, hprep, hsign, hsend, hhead]
    simp [jsTruthyStr]

/-- C10 witness: with `emptyIdsClient` (submission succeeds with an empty
id list), the call returns `{success: true, transactionHash: ""}` without
a confirmation wait. -/
theorem C10_witness :
    sendTransaction emptyIdsClient sampleCrypto "p" 10 validStore "u".data
        { toAddress := "0xT" } none
      = (.ok { success := true, transactionHash := "" },
         [.createSigner, .prepareStep, .signStep, .submitStep]) :=
  (C10_success_flag_spec emptyIdsClient sampleCrypto "p" 10 validStore "u".data
      { toAddress := "0xT" } none).2
    { sampleSession1 with expiresAt := 100 } "signer:k" "0xT" "prepared" "signed"
    { preparedCallIds := [] } rfl (by decide) (by decide) rfl rfl rfl rfl rfl rfl

end SessionKeysDemo
